import Mathlib

/-!
Verification development for the virt-manager install core
(`virtinst/generatename.py` and `virtinst/Installer.py`), shallowly
embedded in Lean.  Python functions become Lean functions; the mutable
installer state becomes explicit records; exceptions become `Except` or
an explicit error component of the result; filesystem and libvirt
effects become oracle functions supplied as parameters.
-/

namespace VirtInst

/-- Failure kinds a collision callback may signal: `libvirtError` is the
"not found" kind swallowed by `libvirt_collision`; `other t` stands for
any other exception class (tagged by a number). -/
inductive PyExc where
  | libvirtError : PyExc
  | other : Nat → PyExc
deriving DecidableEq, Repr

/-- Outcome of `generate_name`: either the range was exhausted
(`ValueError` "Name generation range exceeded" in the source) or a
probe exception propagated. -/
inductive GenError where
  | exhausted : GenError
  | probeError : PyExc → GenError
deriving DecidableEq, Repr

/-- Source `generatename.libvirt_collision`: run the callback; a non-`None`
result means collision (`true`), a raised `libvirtError` means no
collision (`false`), any other exception propagates. -/
def libvirt_collision (collision_cb : String → Except PyExc (Option Unit))
    (val : Option String) : Except PyExc Bool :=
  match val with
  | none => .ok false
  | some v =>
    match collision_cb v with
    | .ok r => .ok r.isSome
    | .error .libvirtError => .ok false
    | .error e => .error e

/-- The probe used by `generate_name` when `lib_collision=True`:
the callback routed through `libvirt_collision`. -/
def lib_probe (collision_cb : String → Except PyExc (Option Unit)) :
    String → Except PyExc Bool :=
  fun n => libvirt_collision collision_cb (some n)

/-- Candidate construction inside the loop of `generate_name`:
`tryname = base`, then `+= sep + str(i)` when `i` is not `None`,
then `+= suffix`. -/
def mkCandidate (base sep suffix : String) : Option Nat → String
  | none => base ++ suffix
  | some i => (base ++ (sep ++ toString i)) ++ suffix

/-- Python `range(start, start + k)` as a head-first list. -/
def rangeFrom (start : Nat) : Nat → List Nat
  | 0 => []
  | k + 1 => start :: rangeFrom (start + 1) k

/-- The `numrange` of `generate_name`: `range(start_num, start_num + 100000)`,
with `None` prepended when `force_num` is false. -/
def numrange (start_num : Nat) (force_num : Bool) : List (Option Nat) :=
  let nums := (rangeFrom start_num 100000).map (fun i => some i)
  if force_num then nums else none :: nums

/-- The `for i in numrange` loop of `generate_name`, with the `collide`
check inlined: a candidate in `collidelist` collides without calling the
probe; otherwise the probe decides (or raises).  Besides the loop's
outcome (`.ok none` = range exhausted, `.ok (some n)` = free name found,
`.error e` = probe exception) we return the list of candidates the probe
was actually called on, in call order. -/
def genLoop (collidelist : List String) (probe : String → Except PyExc Bool)
    (mk : Option Nat → String) :
    List (Option Nat) → Except PyExc (Option String) × List String
  | [] => (.ok none, [])
  | i :: rest =>
    let tryname := mk i
    if tryname ∈ collidelist then
      genLoop collidelist probe mk rest
    else
      match probe tryname with
      | .error e => (.error e, [tryname])
      | .ok true =>
        let r := genLoop collidelist probe mk rest
        (r.1, tryname :: r.2)
      | .ok false => (.ok (some tryname), [tryname])

/-- Map the loop outcome to the outcome of `generate_name`: a free name
is returned, loop exhaustion becomes the `ValueError`, a probe exception
propagates. -/
def genResult : Except PyExc (Option String) → Except GenError String
  | .error e => .error (.probeError e)
  | .ok none => .error .exhausted
  | .ok (some n) => .ok n

/-- Source `generatename.generate_name` (source defaults: `suffix=""`,
`start_num=1`, `sep="-"`, `force_num=False`, `collidelist=None`;
the two probe conventions are obtained by instantiating `probe` with
`lib_probe cb` or with a non-raising boolean callback).  Returns the
result together with the probe-call trace. -/
def generate_name (base : String) (probe : String → Except PyExc Bool)
    (suffix : String) (start_num : Nat) (sep : String) (force_num : Bool)
    (collidelist : List String) : Except GenError String × List String :=
  let r := genLoop collidelist probe (mkCandidate base sep suffix)
      (numrange start_num force_num)
  (genResult r.1, r.2)

theorem generate_name_fst (base : String) (probe : String → Except PyExc Bool)
    (suffix : String) (start_num : Nat) (sep : String) (force_num : Bool)
    (collidelist : List String) :
    (generate_name base probe suffix start_num sep force_num collidelist).1
      = genResult (genLoop collidelist probe (mkCandidate base sep suffix)
          (numrange start_num force_num)).1 := rfl

theorem generate_name_snd (base : String) (probe : String → Except PyExc Bool)
    (suffix : String) (start_num : Nat) (sep : String) (force_num : Bool)
    (collidelist : List String) :
    (generate_name base probe suffix start_num sep force_num collidelist).2
      = (genLoop collidelist probe (mkCandidate base sep suffix)
          (numrange start_num force_num)).2 := rfl

theorem genResult_eq_ok {r : Except PyExc (Option String)} {n : String}
    (h : genResult r = .ok n) : r = .ok (some n) := by
  match r with
  | .error e => simp [genResult] at h
  | .ok none => simp [genResult] at h
  | .ok (some m) =>
    simp only [genResult, Except.ok.injEq] at h
    rw [h]

theorem genResult_eq_probeError {r : Except PyExc (Option String)} {e : PyExc}
    (h : genResult r = .error (.probeError e)) : r = .error e := by
  match r with
  | .error e' =>
    simp only [genResult, Except.error.injEq, GenError.probeError.injEq] at h
    rw [h]
  | .ok none => simp [genResult] at h
  | .ok (some m) => simp [genResult] at h

theorem rangeFrom_length (k : Nat) : ∀ start, (rangeFrom start k).length = k := by
  induction k with
  | zero => intro start; rfl
  | succ k ih => intro start; simp [rangeFrom, ih]

theorem rangeFrom_eq_map_range (k : Nat) :
    ∀ start, rangeFrom start k = (List.range k).map (fun j => start + j) := by
  induction k with
  | zero => intro start; rfl
  | succ k ih =>
    intro start
    rw [List.range_succ_eq_map]
    simp [rangeFrom, ih, List.map_map, Function.comp]
    intro a _
    omega

/-- With an always-colliding probe and no extra collide list, the loop
exhausts the whole range and probes every candidate in order. -/
theorem genLoop_const_true (mk : Option Nat → String) :
    ∀ is_, genLoop [] (fun _ => Except.ok true) mk is_ = (.ok none, is_.map mk) := by
  intro is_
  induction is_ with
  | nil => rfl
  | cons i rest ih => simp [genLoop, ih]

/-- When the loop returns a free name: that name is outside the collide
list, the probe rejected it, every candidate before it collided, and the
probe was never called on any candidate past it. -/
theorem genLoop_found (collidelist : List String)
    (probe : String → Except PyExc Bool) (mk : Option Nat → String) :
    ∀ is_ n log, genLoop collidelist probe mk is_ = (.ok (some n), log) →
      n ∉ collidelist ∧ probe n = .ok false ∧
      ∃ before after, is_.map mk = before ++ n :: after ∧
        (∀ c ∈ before, c ∈ collidelist ∨ probe c = .ok true) ∧
        (∀ c ∈ log, c ∈ before ∨ c = n) := by
  intro is_
  induction is_ with
  | nil =>
    intro n log h
    simp [genLoop] at h
  | cons i rest ih =>
    intro n log h
    simp only [genLoop] at h
    by_cases hm : mk i ∈ collidelist
    · rw [if_pos hm] at h
      obtain ⟨hn, hp, before, after, heq, hbef, hlog⟩ := ih n log h
      refine ⟨hn, hp, mk i :: before, after, by simp [heq], ?_, ?_⟩
      · intro c hc
        rcases List.mem_cons.mp hc with hc | hc
        · exact Or.inl (hc ▸ hm)
        · exact hbef c hc
      · intro c hc
        rcases hlog c hc with h1 | h1
        · exact Or.inl (List.mem_cons_of_mem _ h1)
        · exact Or.inr h1
    · rw [if_neg hm] at h
      cases hp : probe (mk i) with
      | error e => rw [hp] at h; simp at h
      | ok b =>
        rw [hp] at h
        cases b with
        | true =>
          simp only [Prod.mk.injEq] at h
          obtain ⟨h1, h2⟩ := h
          have hrec : genLoop collidelist probe mk rest
              = (Except.ok (some n), (genLoop collidelist probe mk rest).2) := by
            rw [← h1]
          obtain ⟨hn, hpn, before, after, heq, hbef, hlog⟩ :=
            ih n (genLoop collidelist probe mk rest).2 hrec
          refine ⟨hn, hpn, mk i :: before, after, by simp [heq], ?_, ?_⟩
          · intro c hc
            rcases List.mem_cons.mp hc with hc | hc
            · exact Or.inr (hc ▸ hp)
            · exact hbef c hc
          · intro c hc
            rw [← h2] at hc
            rcases List.mem_cons.mp hc with hc | hc
            · exact Or.inl (hc ▸ List.mem_cons_self _ _)
            · rcases hlog c hc with h3 | h3
              · exact Or.inl (List.mem_cons_of_mem _ h3)
              · exact Or.inr h3
        | false =>
          simp only [Prod.mk.injEq, Except.ok.injEq, Option.some.injEq] at h
          obtain ⟨h1, h2⟩ := h
          subst h1
          refine ⟨hm, hp, [], rest.map mk, by simp, by simp, ?_⟩
          intro c hc
          rw [← h2] at hc
          simp at hc
          exact Or.inr hc

/-- Any exception surfaced by the loop came from a probe call on a
candidate outside the collide list. -/
theorem genLoop_error (collidelist : List String)
    (probe : String → Except PyExc Bool) (mk : Option Nat → String) :
    ∀ is_ e log, genLoop collidelist probe mk is_ = (.error e, log) →
      ∃ i ∈ is_, mk i ∉ collidelist ∧ probe (mk i) = .error e := by
  intro is_
  induction is_ with
  | nil =>
    intro e log h
    simp [genLoop] at h
  | cons i rest ih =>
    intro e log h
    simp only [genLoop] at h
    by_cases hm : mk i ∈ collidelist
    · rw [if_pos hm] at h
      obtain ⟨j, hj, hjm, hjp⟩ := ih e log h
      exact ⟨j, List.mem_cons_of_mem _ hj, hjm, hjp⟩
    · rw [if_neg hm] at h
      cases hp : probe (mk i) with
      | error e' =>
        rw [hp] at h
        simp only [Prod.mk.injEq, Except.error.injEq] at h
        exact ⟨i, List.mem_cons_self _ _, hm, h.1 ▸ hp⟩
      | ok b =>
        rw [hp] at h
        cases b with
        | true =>
          simp only [Prod.mk.injEq] at h
          obtain ⟨j, hj, hjm, hjp⟩ := ih e (genLoop collidelist probe mk rest).2
            (by rw [← h.1])
          exact ⟨j, List.mem_cons_of_mem _ hj, hjm, hjp⟩
        | false => simp at h

/-- If every candidate before position `i` collides and the probe raises
on candidate `i`, the loop surfaces that exception. -/
theorem genLoop_error_forward (collidelist : List String)
    (probe : String → Except PyExc Bool) (mk : Option Nat → String) :
    ∀ before i after e,
      (∀ j ∈ before, mk j ∈ collidelist ∨ probe (mk j) = .ok true) →
      mk i ∉ collidelist → probe (mk i) = .error e →
      (genLoop collidelist probe mk (before ++ i :: after)).1 = .error e := by
  intro before
  induction before with
  | nil =>
    intro i after e _ hm hp
    simp [genLoop, if_neg hm, hp]
  | cons j rest ih =>
    intro i after e hcoll hm hp
    have hj := hcoll j (List.mem_cons_self _ _)
    have hrest : ∀ k ∈ rest, mk k ∈ collidelist ∨ probe (mk k) = .ok true :=
      fun k hk => hcoll k (List.mem_cons_of_mem _ hk)
    simp only [List.cons_append, genLoop]
    by_cases hjm : mk j ∈ collidelist
    · rw [if_pos hjm]
      exact ih i after e hrest hm hp
    · rw [if_neg hjm]
      rcases hj with hj | hj
      · exact absurd hj hjm
      · rw [hj]
        exact ih i after e hrest hm hp

/-- Shared workhorse: candidate sequence shape and exhaustion count of
`generate_name` with `force_num = False` and an always-colliding probe. -/
theorem generate_name_const_true_spec (base suffix sep : String) (start_num : Nat) :
    (numrange start_num false).map (mkCandidate base sep suffix)
        = (base ++ suffix)
          :: (List.range 100000).map
              (fun k => (base ++ (sep ++ toString (start_num + k))) ++ suffix)
      ∧ (generate_name base (fun _ => Except.ok true) suffix start_num sep false []).1
          = .error .exhausted
      ∧ (generate_name base (fun _ => Except.ok true) suffix start_num sep false []).2.length
          = 100001 := by
  have hnum : numrange start_num false
      = none :: (rangeFrom start_num 100000).map (fun i => some i) := rfl
  have hloop := genLoop_const_true (mkCandidate base sep suffix)
    (numrange start_num false)
  refine ⟨?_, ?_, ?_⟩
  · rw [hnum, List.map_cons, rangeFrom_eq_map_range, List.map_map, List.map_map]
    rfl
  · rw [generate_name_fst, hloop]
    rfl
  · rw [generate_name_snd, hloop, List.length_map, hnum, List.length_cons,
      List.length_map, rangeFrom_length]

/-- Claim C1 (amended form): with `force_num` false the candidate
sequence is `base ++ suffix` followed by the numbered candidates for
N = start_num, start_num + 1, …, start_num + 99999; with an
always-colliding probe all 100001 candidates are tried and the range is
exhausted. -/
theorem generate_name_exhaustion (base suffix sep : String) (start_num : Nat) :
    (numrange start_num false).map (mkCandidate base sep suffix)
        = (base ++ suffix)
          :: (List.range 100000).map
              (fun k => (base ++ (sep ++ toString (start_num + k))) ++ suffix)
      ∧ (generate_name base (fun _ => Except.ok true) suffix start_num sep false []).1
          = .error .exhausted
      ∧ (generate_name base (fun _ => Except.ok true) suffix start_num sep false []).2.length
          = 100001 :=
  generate_name_const_true_spec base suffix sep start_num

/-- Claim C1 counterexample: at base "foo" with the source defaults
(suffix "", sep "-", start_num 1, force_num false) and an
always-colliding probe, the range is exhausted after 100001 probe
attempts, not 100000. -/
theorem generate_name_exhaustion_cex :
    (generate_name "foo" (fun _ => Except.ok true) "" 1 "-" false []).1
        = .error .exhausted
      ∧ (generate_name "foo" (fun _ => Except.ok true) "" 1 "-" false []).2.length
          = 100001
      ∧ (100001 : Nat) ≠ 100000 :=
  ⟨(generate_name_const_true_spec "foo" "" "-" 1).2.1,
   (generate_name_const_true_spec "foo" "" "-" 1).2.2, by decide⟩

/-- Claim C10: whenever `generate_name` returns a name, that name is
outside the extra collision list, the probe reports no collision for it,
it is the earliest candidate with both properties, and the probe is
never called on a candidate after it. -/
theorem generate_name_first_free (base suffix sep : String) (start_num : Nat)
    (force_num : Bool) (probe : String → Except PyExc Bool)
    (collidelist : List String) (n : String) (log : List String)
    (h : generate_name base probe suffix start_num sep force_num collidelist
      = (.ok n, log)) :
    n ∉ collidelist ∧ probe n = .ok false ∧
    ∃ before after,
      (numrange start_num force_num).map (mkCandidate base sep suffix)
        = before ++ n :: after ∧
      (∀ c ∈ before, c ∈ collidelist ∨ probe c = .ok true) ∧
      (∀ c ∈ log, c ∈ before ∨ c = n) := by
  have h1 : genResult (genLoop collidelist probe (mkCandidate base sep suffix)
      (numrange start_num force_num)).1 = .ok n := by
    rw [← generate_name_fst, h]
  have h2 : (genLoop collidelist probe (mkCandidate base sep suffix)
      (numrange start_num force_num)).2 = log := by
    rw [← generate_name_snd, h]
  have h3 := genResult_eq_ok h1
  have h4 : genLoop collidelist probe (mkCandidate base sep suffix)
      (numrange start_num force_num) = (.ok (some n), log) := by
    rw [← h2, ← h3]
  exact genLoop_found collidelist probe (mkCandidate base sep suffix) _ n log h4

/-- Claim C10 witness: with collide list `["foo"]` and a probe that only
collides on "foo-1", the generator returns "foo-2" after probing exactly
"foo-1" and "foo-2". -/
theorem generate_name_first_free_witness :
    generate_name "foo" (fun s => (Except.ok (s == "foo-1") : Except PyExc Bool))
        "" 1 "-" false ["foo"]
        = (.ok "foo-2", ["foo-1", "foo-2"])
      ∧ ("foo-2" ∉ ["foo"]
        ∧ (fun s => (Except.ok (s == "foo-1") : Except PyExc Bool)) "foo-2"
            = Except.ok false
        ∧ ∃ before after,
            (numrange 1 false).map (mkCandidate "foo" "-" "")
              = before ++ "foo-2" :: after ∧
            (∀ c ∈ before, c ∈ ["foo"]
              ∨ (fun s => (Except.ok (s == "foo-1") : Except PyExc Bool)) c
                  = Except.ok true) ∧
            (∀ c ∈ ["foo-1", "foo-2"], c ∈ before ∨ c = "foo-2")) :=
  ⟨rfl,
   generate_name_first_free "foo" "" "-" 1 false
     (fun s => (Except.ok (s == "foo-1") : Except PyExc Bool)) ["foo"] "foo-2"
     ["foo-1", "foo-2"] rfl⟩

theorem lib_probe_error {cb : String → Except PyExc (Option Unit)} {m : String}
    {e : PyExc} (h : lib_probe cb m = .error e) :
    cb m = .error e ∧ e ≠ .libvirtError := by
  rw [lib_probe, libvirt_collision] at h
  cases hc : cb m with
  | ok r => rw [hc] at h; simp at h
  | error e' =>
    rw [hc] at h
    cases e' with
    | libvirtError => simp at h
    | other t =>
      simp only [Except.error.injEq] at h
      rw [← h]
      exact ⟨rfl, by simp⟩

/-- Claim C5: under the signaling probe convention a non-null probe
result is a collision, a raised `libvirtError` (the "not found" kind) is
no collision, and any other exception raised by the probe propagates out
of `generate_name` rather than being swallowed. -/
theorem signaling_convention (cb : String → Except PyExc (Option Unit))
    (n base suffix sep : String) (start_num : Nat) (force_num : Bool)
    (collidelist : List String) (t : Nat) :
    (∀ u, cb n = .ok (some u) → lib_probe cb n = .ok true)
    ∧ (cb n = .error .libvirtError → lib_probe cb n = .ok false)
    ∧ (cb n = .error (.other t) → lib_probe cb n = .error (.other t))
    ∧ (∀ before i after,
        numrange start_num force_num = before ++ i :: after →
        (∀ j ∈ before, mkCandidate base sep suffix j ∈ collidelist
          ∨ lib_probe cb (mkCandidate base sep suffix j) = .ok true) →
        mkCandidate base sep suffix i ∉ collidelist →
        cb (mkCandidate base sep suffix i) = .error (.other t) →
        (generate_name base (lib_probe cb) suffix start_num sep force_num
            collidelist).1 = .error (.probeError (.other t)))
    ∧ (∀ e, (generate_name base (lib_probe cb) suffix start_num sep force_num
          collidelist).1 = .error (.probeError e) →
        e ≠ .libvirtError ∧ ∃ m, cb m = .error e) := by
  refine ⟨?_, ?_, ?_, ?_, ?_⟩
  · intro u hu
    rw [lib_probe, libvirt_collision, hu]
    rfl
  · intro hu
    rw [lib_probe, libvirt_collision, hu]
  · intro hu
    rw [lib_probe, libvirt_collision, hu]
  · intro before i after hdec hbef hm hp
    have hperr : lib_probe cb (mkCandidate base sep suffix i) = .error (.other t) := by
      rw [lib_probe, libvirt_collision, hp]
    have hfwd := genLoop_error_forward collidelist (lib_probe cb)
      (mkCandidate base sep suffix) before i after (.other t) hbef hm hperr
    rw [← hdec] at hfwd
    rw [generate_name_fst, hfwd]
    rfl
  · intro e he
    have h1 : genResult (genLoop collidelist (lib_probe cb)
        (mkCandidate base sep suffix) (numrange start_num force_num)).1
        = .error (.probeError e) := by
      rw [← generate_name_fst, he]
    have h2 := genResult_eq_probeError h1
    have h3 : genLoop collidelist (lib_probe cb) (mkCandidate base sep suffix)
        (numrange start_num force_num)
        = (.error e, (genLoop collidelist (lib_probe cb)
            (mkCandidate base sep suffix) (numrange start_num force_num)).2) := by
      rw [← h2]
    obtain ⟨i, _, him, hip⟩ := genLoop_error collidelist (lib_probe cb)
      (mkCandidate base sep suffix) _ e _ h3
    obtain ⟨hcb, hne⟩ := lib_probe_error hip
    exact ⟨hne, mkCandidate base sep suffix i, hcb⟩

/-- Claim C5 witness: a probe returning a value collides, one raising
`libvirtError` does not, and one raising a different exception makes
`generate_name` surface exactly that exception. -/
theorem signaling_convention_witness :
    lib_probe (fun _ => Except.ok (some ())) "x" = .ok true
    ∧ lib_probe (fun _ => Except.error PyExc.libvirtError) "x" = .ok false
    ∧ lib_probe (fun _ => Except.error (PyExc.other 7)) "x"
        = .error (PyExc.other 7)
    ∧ (generate_name "foo" (lib_probe (fun _ => Except.error (PyExc.other 7)))
        "" 1 "-" false []).1 = .error (.probeError (.other 7)) :=
  ⟨(signaling_convention (fun _ => Except.ok (some ())) "x" "foo" "" "-" 1 false
      [] 7).1 () rfl,
   (signaling_convention (fun _ => Except.error PyExc.libvirtError) "x" "foo" ""
      "-" 1 false [] 7).2.1 rfl,
   (signaling_convention (fun _ => Except.error (PyExc.other 7)) "x" "foo" ""
      "-" 1 false [] 7).2.2.1 rfl,
   (signaling_convention (fun _ => Except.error (PyExc.other 7)) "foo" "foo" ""
      "-" 1 false [] 7).2.2.2.1 [] none
     ((rangeFrom 1 100000).map (fun i => some i)) rfl (by simp) (by simp) rfl⟩

/-- Values of `VirtualDisk.device`: `DEVICE_DISK`, `DEVICE_CDROM`,
`DEVICE_FLOPPY`, or any other kind (e.g. "lun"). -/
inductive DiskDevice where
  | disk | cdrom | floppy | other
deriving DecidableEq, Repr

/-- A guest disk device as read by the installer core. -/
structure VirtualDisk where
  device : DiskDevice
deriving DecidableEq, Repr

/-- The `BOOT_DEVICE_*` constants of the boot configuration. -/
inductive BootDev where
  | network | cdrom | harddisk | floppy
deriving DecidableEq, Repr

/-- Source `Installer._build_boot_order`: `None` from `_get_bootdev` means
kernel boot (empty list); otherwise start from the resolved device and,
at the first guest disk whose kind is `DEVICE_DISK`, append `harddisk`
unless already present, then stop scanning. -/
def _build_boot_order (bootdev? : Option BootDev)
    (guestDisks : List VirtualDisk) : List BootDev :=
  match bootdev? with
  | none => []
  | some bootdev =>
    let bootorder := [bootdev]
    match guestDisks.find? (fun d => d.device == DiskDevice.disk) with
    | none => bootorder
    | some _ =>
      if BootDev.harddisk ∈ bootorder then bootorder
      else bootorder ++ [BootDev.harddisk]

/-- Helper marking arguments the source explicitly ignores
(`ignore = isinstall` / `ignore = guest`). -/
def ignoreArgs {α β γ : Type} (_ : α) (_ : β) (c : γ) : γ := c

/-- Source `ContainerInstaller._get_bootdev`: always harddisk. -/
def container_get_bootdev (isinstall : Bool) (guestDisks : List VirtualDisk) :
    BootDev :=
  ignoreArgs isinstall guestDisks BootDev.harddisk

/-- Source `PXEInstaller._get_bootdev`: network, downgraded to harddisk for a
post-install boot when the guest has a `DEVICE_DISK` disk attached. -/
def pxe_get_bootdev (isinstall : Bool) (guestDisks : List VirtualDisk) :
    BootDev :=
  let bootdev := BootDev.network
  if !isinstall
      && !(guestDisks.filter (fun d => d.device == DiskDevice.disk)).isEmpty then
    BootDev.harddisk
  else
    bootdev

/-- Source `LiveCDInstaller._get_bootdev`: always cdrom. -/
def livecd_get_bootdev (isinstall : Bool) (guestDisks : List VirtualDisk) :
    BootDev :=
  ignoreArgs isinstall guestDisks BootDev.cdrom

/-- Source `ImportInstaller._disk_to_bootdev`. -/
def _disk_to_bootdev (disk : VirtualDisk) : BootDev :=
  if disk.device == DiskDevice.disk then BootDev.harddisk
  else if disk.device == DiskDevice.cdrom then BootDev.cdrom
  else if disk.device == DiskDevice.floppy then BootDev.floppy
  else BootDev.harddisk

/-- Source `ImportInstaller._get_bootdev`: harddisk when the guest has no
disks, otherwise determined by the first disk alone. -/
def import_get_bootdev (isinstall : Bool) (guestDisks : List VirtualDisk) :
    BootDev :=
  match guestDisks with
  | [] => ignoreArgs isinstall () BootDev.harddisk
  | d :: _ => ignoreArgs isinstall () (_disk_to_bootdev d)

theorem find_disk_none_iff (guestDisks : List VirtualDisk) :
    guestDisks.find? (fun d => d.device == DiskDevice.disk) = none
      ↔ guestDisks.any (fun d => d.device == DiskDevice.disk) = false := by
  rw [List.find?_eq_none, List.any_eq_false]

/-- Claim C3: the assembled boot order is empty for the none sentinel;
otherwise it is the primary device, followed by harddisk exactly when
some guest disk has kind `DEVICE_DISK` and the primary is not already
harddisk. -/
theorem build_boot_order_spec (bd : BootDev) (guestDisks : List VirtualDisk) :
    _build_boot_order none guestDisks = []
    ∧ _build_boot_order (some bd) guestDisks
        = (if guestDisks.any (fun d => d.device == DiskDevice.disk)
              && !(bd == BootDev.harddisk)
           then [bd, BootDev.harddisk] else [bd])
    ∧ _build_boot_order (some BootDev.network) [⟨DiskDevice.disk⟩]
        = [BootDev.network, BootDev.harddisk]
    ∧ _build_boot_order (some BootDev.harddisk) [⟨DiskDevice.disk⟩]
        = [BootDev.harddisk] := by
  refine ⟨rfl, ?_, by decide, by decide⟩
  simp only [_build_boot_order]
  cases hf : guestDisks.find? (fun d => d.device == DiskDevice.disk) with
  | none =>
    have hany := (find_disk_none_iff guestDisks).mp hf
    rw [hany]
    simp
  | some d =>
    have hpd := List.find?_some hf
    have hdm := List.mem_of_find?_eq_some hf
    have hany : guestDisks.any (fun d => d.device == DiskDevice.disk) = true :=
      List.any_eq_true.mpr ⟨d, hdm, hpd⟩
    rw [hany]
    by_cases hbd : bd = BootDev.harddisk
    · subst hbd
      simp
    · have hbe : (bd == BootDev.harddisk) = false := by
        simp [hbd]
      rw [hbe]
      have hmem : BootDev.harddisk ∉ [bd] := by
        simp [Ne.symm hbd]
      simp [hmem, Ne.symm hbd]

/-- Claim C4: the PXE variant boots from network, except that a
post-install boot with an attached `DEVICE_DISK` disk boots from the
hard disk. -/
theorem pxe_bootdev_spec (isinstall : Bool) (guestDisks : List VirtualDisk) :
    pxe_get_bootdev isinstall guestDisks
      = (if !isinstall && guestDisks.any (fun d => d.device == DiskDevice.disk)
         then BootDev.harddisk else BootDev.network) := by
  rw [pxe_get_bootdev]
  have h : (guestDisks.filter (fun d => d.device == DiskDevice.disk)).isEmpty
      = !(guestDisks.any (fun d => d.device == DiskDevice.disk)) := by
    induction guestDisks with
    | nil => rfl
    | cons d rest ih =>
      by_cases hd : d.device = DiskDevice.disk
      · simp [hd, List.filter, List.any]
      · have : (d.device == DiskDevice.disk) = false := by simp [hd]
        simp [List.filter, List.any, this, ih]
  rw [h, Bool.not_not]

/-- Claim C7: the Import variant ignores `isinstall` and everything but
the first guest disk; no disks means harddisk, otherwise the first
disk's kind maps disk→harddisk, cdrom→cdrom, floppy→floppy,
other→harddisk. -/
theorem import_bootdev_spec (i1 i2 : Bool) (guestDisks : List VirtualDisk)
    (d : VirtualDisk) (rest : List VirtualDisk) :
    import_get_bootdev i1 guestDisks = import_get_bootdev i2 guestDisks
    ∧ import_get_bootdev i1 [] = BootDev.harddisk
    ∧ import_get_bootdev i1 (d :: rest) = _disk_to_bootdev d
    ∧ _disk_to_bootdev ⟨DiskDevice.disk⟩ = BootDev.harddisk
    ∧ _disk_to_bootdev ⟨DiskDevice.cdrom⟩ = BootDev.cdrom
    ∧ _disk_to_bootdev ⟨DiskDevice.floppy⟩ = BootDev.floppy
    ∧ _disk_to_bootdev ⟨DiskDevice.other⟩ = BootDev.harddisk
    ∧ import_get_bootdev i1 [⟨DiskDevice.cdrom⟩, ⟨DiskDevice.disk⟩]
        = BootDev.cdrom
    ∧ import_get_bootdev i1 [⟨DiskDevice.floppy⟩] = BootDev.floppy := by
  refine ⟨?_, rfl, rfl, rfl, rfl, rfl, rfl, rfl, rfl⟩
  cases guestDisks with
  | nil => rfl
  | cons d' rest' => rfl

/-- The boot-configuration fields `Installer._get_xml_config` touches
(`osxml.OSXML`): boot order plus kernel/initrd/kernel-args. -/
structure OSXMLModel where
  bootorder : List BootDev
  kernel : Option String
  initrd : Option String
  kernel_args : Option String
deriving DecidableEq, Repr

/-- The installer state `_get_xml_config` reads. -/
structure InstallerModel where
  bootconfig : OSXMLModel
  has_install_phase : Bool
  install_kernel : Option String
  install_initrd : Option String
  install_args : Option String
deriving DecidableEq, Repr

/-- The `if isinstall:` block of `_get_xml_config`: apply each of the
kernel/initrd/kernel-args overrides independently, when present. -/
def applyInstallOverrides (inst : InstallerModel) (bc : OSXMLModel) : OSXMLModel :=
  let k1 := if inst.install_kernel.isSome
    then { bc with kernel := inst.install_kernel } else bc
  let k2 := if inst.install_initrd.isSome
    then { k1 with initrd := inst.install_initrd } else k1
  if inst.install_args.isSome
    then { k2 with kernel_args := inst.install_args } else k2

/-- Source `Installer._get_xml_config`, modelling the boot configuration it
hands to serialization (serialization itself is out of scope;
`get_bootdev` stands for the variant's `_get_bootdev`, `none` result
meaning the variant returned `None`). -/
def _get_xml_config (inst : InstallerModel)
    (get_bootdev : Bool → List VirtualDisk → Option BootDev)
    (guestDisks : List VirtualDisk) (isinstall : Bool) : Option OSXMLModel :=
  if isinstall && !inst.has_install_phase then none
  else
    let bootorder := _build_boot_order (get_bootdev isinstall guestDisks)
      guestDisks
    let bc1 := if inst.bootconfig.bootorder.isEmpty
      then { inst.bootconfig with bootorder := bootorder } else inst.bootconfig
    some (if isinstall then applyInstallOverrides inst bc1 else bc1)

theorem applyInstallOverrides_bootorder (inst : InstallerModel)
    (bc : OSXMLModel) : (applyInstallOverrides inst bc).bootorder = bc.bootorder := by
  simp only [applyInstallOverrides]
  split <;> split <;> split <;> rfl

/-- Claim C8: the configuration copy produced by `_get_xml_config` gets
the computed boot order only when the configuration's own boot order is
unset; a user-supplied boot order is never overwritten. -/
theorem bootorder_preserved (inst : InstallerModel)
    (get_bootdev : Bool → List VirtualDisk → Option BootDev)
    (guestDisks : List VirtualDisk) (isinstall : Bool) (cfg : OSXMLModel)
    (h : _get_xml_config inst get_bootdev guestDisks isinstall = some cfg) :
    (inst.bootconfig.bootorder ≠ [] →
      cfg.bootorder = inst.bootconfig.bootorder)
    ∧ (inst.bootconfig.bootorder = [] →
      cfg.bootorder
        = _build_boot_order (get_bootdev isinstall guestDisks) guestDisks) := by
  simp only [_get_xml_config] at h
  split at h
  · exact absurd h (by simp)
  · simp only [Option.some.injEq] at h
    subst h
    constructor
    · intro hne
      have hemp : inst.bootconfig.bootorder.isEmpty = false := by
        cases hbo : inst.bootconfig.bootorder with
        | nil => exact absurd hbo hne
        | cons a l => rfl
      rw [hemp]
      split
      · rw [applyInstallOverrides_bootorder]; simp
      · simp
    · intro hnil
      have hemp : inst.bootconfig.bootorder.isEmpty = true := by
        rw [hnil]; rfl
      rw [hemp]
      split
      · rw [applyInstallOverrides_bootorder]; simp
      · simp

/-- Claim C8 witness: a user-supplied boot order `[cdrom]` survives an
install-phase build that applies a kernel override. -/
theorem bootorder_preserved_witness :
    _get_xml_config
        ⟨⟨[BootDev.cdrom], none, none, none⟩, true, some "vmlinuz", none, none⟩
        (fun i d => some (pxe_get_bootdev i d)) [] true
      = some ⟨[BootDev.cdrom], some "vmlinuz", none, none⟩
    ∧ ([BootDev.cdrom] : List BootDev) ≠ []
    ∧ (⟨[BootDev.cdrom], some "vmlinuz", none, none⟩ : OSXMLModel).bootorder
        = (⟨⟨[BootDev.cdrom], none, none, none⟩, true, some "vmlinuz", none,
            none⟩ : InstallerModel).bootconfig.bootorder :=
  ⟨rfl, by decide,
   (bootorder_preserved
      ⟨⟨[BootDev.cdrom], none, none, none⟩, true, some "vmlinuz", none, none⟩
      (fun i d => some (pxe_get_bootdev i d)) [] true
      ⟨[BootDev.cdrom], some "vmlinuz", none, none⟩ rfl).1 (by decide)⟩

/-- Host facts `_get_scratchdir` consults: `platform.system()`,
`os.path.exists`, `os.access(…, os.W_OK)` and the expansion of `~`. -/
structure HostEnv where
  platform_system : String
  path_exists : String → Bool
  access_w_ok : String → Bool
  home : String

def XEN_SCRATCH : String := "/var/lib/xen"

def LIBVIRT_SCRATCH : String := "/var/lib/libvirt/boot"

/-- Source `Installer._get_system_scratchdir` (the virtualization kind `typ`
is `self.type`). -/
def _get_system_scratchdir (env : HostEnv) (typ : String) : String :=
  if env.platform_system == "SunOS" then "/var/tmp"
  else if typ == "test" then "/tmp"
  else if typ == "xen" then XEN_SCRATCH
  else LIBVIRT_SCRATCH

/-- The fallback branch of `_get_scratchdir`:
`os.path.expanduser("~/.virtinst/boot")`, with `os.makedirs` performed
exactly when the directory does not exist (second component). -/
def userScratchFallback (env : HostEnv) : String × Bool :=
  let scratch := env.home ++ "/.virtinst/boot"
  (scratch, !env.path_exists scratch)

/-- Source `Installer._get_scratchdir`: no system candidate on a session
connection; otherwise the system candidate, kept only if it exists and
is writable; in every other case the per-user fallback. -/
def _get_scratchdir (env : HostEnv) (is_session_uri : Bool) (typ : String) :
    String × Bool :=
  let scratch : Option String :=
    if !is_session_uri then some (_get_system_scratchdir env typ) else none
  match scratch with
  | none => userScratchFallback env
  | some s =>
    if env.path_exists s && env.access_w_ok s then (s, false)
    else userScratchFallback env

/-- Claim C9: session mode skips system candidates; otherwise the
candidate is `/var/tmp` on SunOS, else `/tmp` in test mode, else the Xen
scratch path for xen, else the libvirt scratch path; a skipped, missing
or non-writable candidate falls back to `~/.virtinst/boot`, created when
absent. -/
theorem scratchdir_resolution (env : HostEnv) (typ : String) :
    _get_scratchdir env true typ = userScratchFallback env
    ∧ (env.platform_system = "SunOS" →
        _get_system_scratchdir env typ = "/var/tmp")
    ∧ (env.platform_system ≠ "SunOS" → typ = "test" →
        _get_system_scratchdir env typ = "/tmp")
    ∧ (env.platform_system ≠ "SunOS" → typ ≠ "test" → typ = "xen" →
        _get_system_scratchdir env typ = XEN_SCRATCH)
    ∧ (env.platform_system ≠ "SunOS" → typ ≠ "test" → typ ≠ "xen" →
        _get_system_scratchdir env typ = LIBVIRT_SCRATCH)
    ∧ ((env.path_exists (_get_system_scratchdir env typ)
          && env.access_w_ok (_get_system_scratchdir env typ)) = true →
        _get_scratchdir env false typ = (_get_system_scratchdir env typ, false))
    ∧ ((env.path_exists (_get_system_scratchdir env typ)
          && env.access_w_ok (_get_system_scratchdir env typ)) = false →
        _get_scratchdir env false typ = userScratchFallback env)
    ∧ userScratchFallback env
        = (env.home ++ "/.virtinst/boot",
           !env.path_exists (env.home ++ "/.virtinst/boot")) := by
  refine ⟨rfl, ?_, ?_, ?_, ?_, ?_, ?_, rfl⟩
  · intro h
    simp [_get_system_scratchdir, h]
  · intro h1 h2
    simp [_get_system_scratchdir, h1, h2]
  · intro h1 h2 h3
    simp [_get_system_scratchdir, h1, h2, h3]
  · intro h1 h2 h3
    simp [_get_system_scratchdir, h1, h2, h3]
  · intro h
    simp [_get_scratchdir, h]
  · intro h
    simp [_get_scratchdir, h]

/-- Claim C9 witness: on a non-SunOS host with only the Xen scratch path
present and writable, a xen system connection resolves to the Xen path
with no directory creation, and a session connection falls back to the
per-user directory, creating it. -/
theorem scratchdir_resolution_witness :
    _get_scratchdir
        ⟨"Linux", fun p => p == "/var/lib/xen", fun p => p == "/var/lib/xen",
          "/home/u"⟩ false "xen"
      = ("/var/lib/xen", false)
    ∧ _get_scratchdir
        ⟨"Linux", fun p => p == "/var/lib/xen", fun p => p == "/var/lib/xen",
          "/home/u"⟩ true "xen"
      = ("/home/u/.virtinst/boot", true) :=
  ⟨(scratchdir_resolution
      ⟨"Linux", fun p => p == "/var/lib/xen", fun p => p == "/var/lib/xen",
        "/home/u"⟩ "xen").2.2.2.2.2.1 (by decide),
   (scratchdir_resolution
      ⟨"Linux", fun p => p == "/var/lib/xen", fun p => p == "/var/lib/xen",
        "/home/u"⟩ "xen").1⟩

/-- The ephemeral tracking collections of an `Installer`
(`install_devices`, `_tmpfiles`, `_tmpvols`); volumes are identified by
name. -/
structure CleanupState where
  tmpfiles : List String
  tmpvols : List String
  install_devices : List String
deriving DecidableEq, Repr

/-- One delete loop of `cleanup` (`os.unlink` over temp files, or
`vol.delete(0)` over temp volumes): `ok` tells whether the delete of an
entry succeeds.  Returns the entries whose delete was attempted, in
order, and the entry whose delete raised, if any; the loop stops at the
first raise. -/
def runDeletes (ok : String → Bool) : List String → List String × Option String
  | [] => ([], none)
  | f :: rest =>
    if ok f then
      let r := runDeletes ok rest
      (f :: r.1, r.2)
    else ([f], some f)

/-- Source `Installer.cleanup`: unlink every temp file, delete every temp
volume, then clear the three tracking lists.  A raise propagates
immediately, leaving the tracking lists untouched.  Returns the state of
the tracking lists, the attempted deletes in order, and the raising
entry, if any. -/
def cleanup (unlink_ok vol_delete_ok : String → Bool) (st : CleanupState) :
    CleanupState × List String × Option String :=
  let fr := runDeletes unlink_ok st.tmpfiles
  match fr.2 with
  | some e => (st, fr.1, some e)
  | none =>
    let vr := runDeletes vol_delete_ok st.tmpvols
    match vr.2 with
    | some e => (st, fr.1 ++ vr.1, some e)
    | none => (⟨[], [], []⟩, fr.1 ++ vr.1, none)

theorem runDeletes_none (ok : String → Bool) :
    ∀ l log, runDeletes ok l = (log, none) → log = l := by
  intro l
  induction l with
  | nil =>
    intro log h
    simp only [runDeletes, Prod.mk.injEq] at h
    exact h.1.symm
  | cons f rest ih =>
    intro log h
    simp only [runDeletes] at h
    by_cases hf : ok f
    · rw [if_pos hf] at h
      simp only [Prod.mk.injEq] at h
      have := ih (runDeletes ok rest).1 (by rw [← h.2])
      rw [← h.1, this]
    · rw [if_neg hf] at h
      simp at h

theorem runDeletes_some (ok : String → Bool) :
    ∀ l log e, runDeletes ok l = (log, some e) → ok e = false ∧ e ∈ l := by
  intro l
  induction l with
  | nil =>
    intro log e h
    simp [runDeletes] at h
  | cons f rest ih =>
    intro log e h
    simp only [runDeletes] at h
    by_cases hf : ok f
    · rw [if_pos hf] at h
      simp only [Prod.mk.injEq] at h
      obtain ⟨he, hmem⟩ := ih (runDeletes ok rest).1 e (by rw [← h.2])
      exact ⟨he, List.mem_cons_of_mem _ hmem⟩
    · rw [if_neg hf] at h
      simp only [Prod.mk.injEq, Option.some.injEq] at h
      rw [← h.2]
      exact ⟨hf |> Bool.eq_false_iff.mpr |> fun x => x, List.mem_cons_self _ _⟩

/-- Claim C2 (amended form): `cleanup` attempts deletes in order and
stops at the first failing delete, which propagates to the caller; the
tracking lists are cleared only when every delete succeeds, so after a
mid-cleanup failure every entry, attempted or not, remains tracked. -/
theorem cleanup_spec (u v : String → Bool) (st : CleanupState) :
    (∀ st' log, cleanup u v st = (st', log, none) →
      st' = ⟨[], [], []⟩ ∧ log = st.tmpfiles ++ st.tmpvols)
    ∧ (∀ st' log e, cleanup u v st = (st', log, some e) →
      st' = st ∧ (e ∈ st.tmpfiles ∧ u e = false
        ∨ e ∈ st.tmpvols ∧ v e = false)) := by
  constructor
  · intro st' log h
    simp only [cleanup] at h
    cases hf : (runDeletes u st.tmpfiles).2 with
    | some e => rw [hf] at h; simp at h
    | none =>
      rw [hf] at h
      cases hv : (runDeletes v st.tmpvols).2 with
      | some e => rw [hv] at h; simp at h
      | none =>
        rw [hv] at h
        simp only [Prod.mk.injEq] at h
        have hfl := runDeletes_none u st.tmpfiles _ (by rw [← hf])
        have hvl := runDeletes_none v st.tmpvols _ (by rw [← hv])
        exact ⟨h.1.symm, by rw [← h.2.1, hfl, hvl]⟩
  · intro st' log e h
    simp only [cleanup] at h
    cases hf : (runDeletes u st.tmpfiles).2 with
    | some e' =>
      rw [hf] at h
      simp only [Prod.mk.injEq, Option.some.injEq] at h
      obtain ⟨he', hmem⟩ := runDeletes_some u st.tmpfiles _ e' (by rw [← hf])
      exact ⟨h.1.symm, Or.inl ⟨h.2.2 ▸ hmem, h.2.2 ▸ he'⟩⟩
    | none =>
      rw [hf] at h
      cases hv : (runDeletes v st.tmpvols).2 with
      | some e' =>
        rw [hv] at h
        simp only [Prod.mk.injEq, Option.some.injEq] at h
        obtain ⟨he', hmem⟩ := runDeletes_some v st.tmpvols _ e' (by rw [← hv])
        exact ⟨h.1.symm, Or.inr ⟨h.2.2 ▸ hmem, h.2.2 ▸ he'⟩⟩
      | none => rw [hv] at h; simp at h

/-- Claim C2 counterexample: with temp files `["a", "b"]` where the
delete of "a" raises, `cleanup` never attempts "b" (it is not in the
attempt list), so a failing delete does not let later entries be
attempted; the tracking lists stay as they were. -/
theorem cleanup_not_exhaustive_cex :
    cleanup (fun f => f == "b") (fun _ => true) ⟨["a", "b"], [], ["dev"]⟩
        = (⟨["a", "b"], [], ["dev"]⟩, ["a"], some "a")
    ∧ "b" ∈ (⟨["a", "b"], [], ["dev"]⟩ : CleanupState).tmpfiles
    ∧ "b" ∉ ["a"] :=
  ⟨rfl, by decide, by decide⟩

/-- Claim C2 witness: when every delete succeeds all entries are
attempted and the collections are cleared; when one raises the state is
untouched. -/
theorem cleanup_spec_witness :
    cleanup (fun _ => true) (fun _ => true) ⟨["a"], ["v1"], ["d"]⟩
        = (⟨[], [], []⟩, ["a", "v1"], none)
    ∧ ((⟨[], [], []⟩ : CleanupState) = ⟨[], [], []⟩
      ∧ (["a", "v1"] : List String) = ["a"] ++ ["v1"])
    ∧ cleanup (fun f => f == "b") (fun _ => true) ⟨["a", "b"], [], ["dev"]⟩
        = (⟨["a", "b"], [], ["dev"]⟩, ["a"], some "a")
    ∧ ((⟨["a", "b"], [], ["dev"]⟩ : CleanupState) = ⟨["a", "b"], [], ["dev"]⟩
      ∧ ("a" ∈ (["a", "b"] : List String) ∧ (fun f => f == "b") "a" = false
        ∨ "a" ∈ ([] : List String) ∧ (fun _ => true) "a" = false)) :=
  ⟨rfl,
   (cleanup_spec (fun _ => true) (fun _ => true) ⟨["a"], ["v1"], ["d"]⟩).1
     ⟨[], [], []⟩ ["a", "v1"] rfl,
   rfl,
   (cleanup_spec (fun f => f == "b") (fun _ => true)
      ⟨["a", "b"], [], ["dev"]⟩).2 ⟨["a", "b"], [], ["dev"]⟩ ["a"] "a" rfl⟩

/-- The Python values relevant to `set_cdrom`: booleans, integers,
strings and `None`. -/
inductive PyVal where
  | pyBool : Bool → PyVal
  | pyInt : Int → PyVal
  | pyStr : String → PyVal
  | pyNone : PyVal
deriving DecidableEq, Repr

/-- Python `==` on these values: `bool` is an `int` subclass, so
`True == 1` and `False == 0`; different non-numeric kinds are unequal. -/
def pyEq : PyVal → PyVal → Bool
  | .pyBool a, .pyBool b => a == b
  | .pyBool a, .pyInt n => (if a then (1 : Int) else 0) == n
  | .pyInt n, .pyBool b => n == (if b then (1 : Int) else 0)
  | .pyInt a, .pyInt b => a == b
  | .pyStr a, .pyStr b => a == b
  | .pyNone, .pyNone => true
  | _, _ => false

/-- Python `v in l` (membership by `==`). -/
def pyelem (v : PyVal) (l : List PyVal) : Bool :=
  l.any (fun w => pyEq v w)

/-- The installer fields `set_cdrom` can see: its own `_cdrom` plus the
unrelated `_location`, to record that nothing else is mutated. -/
structure CdromState where
  cdrom : PyVal
  location : Option String
deriving DecidableEq, Repr

/-- Source `Installer.set_cdrom`: raise `ValueError` when
`enable not in [True, False]`, else assign `_cdrom = enable`.  The
second component is the raised error text; a raise happens before the
assignment, leaving the state untouched. -/
def set_cdrom (st : CdromState) (enable : PyVal) : CdromState × Option String :=
  if !(pyelem enable [PyVal.pyBool true, PyVal.pyBool false]) then
    (st, some "Guest.cdrom must be a boolean type")
  else ({ st with cdrom := enable }, none)

/-- Claim C6 (amended form): `set_cdrom` rejects, atomically, any value
that is not Python-`==`-equal to `True` or `False`; values equal to them
under Python `==` (including the integers 1 and 0) are accepted and
stored as given. -/
theorem set_cdrom_spec (st : CdromState) (v : PyVal) :
    (pyEq v (PyVal.pyBool true) = false ∧ pyEq v (PyVal.pyBool false) = false →
      set_cdrom st v = (st, some "Guest.cdrom must be a boolean type"))
    ∧ (pyEq v (PyVal.pyBool true) = true ∨ pyEq v (PyVal.pyBool false) = true →
      set_cdrom st v = ({ st with cdrom := v }, none)) := by
  constructor
  · intro hv
    simp [set_cdrom, pyelem, hv.1, hv.2]
  · intro hv
    rcases hv with hv | hv <;> simp [set_cdrom, pyelem, hv]

/-- Claim C6 counterexample: the integer 1 is not a boolean, yet
`set_cdrom` accepts it and stores it, because Python's `in` compares
with `==` and `True == 1`. -/
theorem set_cdrom_nonbool_cex :
    set_cdrom ⟨PyVal.pyBool false, none⟩ (PyVal.pyInt 1)
        = (⟨PyVal.pyInt 1, none⟩, none)
    ∧ PyVal.pyInt 1 ≠ PyVal.pyBool true
    ∧ PyVal.pyInt 1 ≠ PyVal.pyBool false :=
  ⟨rfl, by decide, by decide⟩

/-- Claim C6 witness: a string is rejected with the state untouched; the
integer 1 (Python-equal to True) is accepted and stored. -/
theorem set_cdrom_spec_witness :
    (pyEq (PyVal.pyStr "x") (PyVal.pyBool true) = false
      ∧ pyEq (PyVal.pyStr "x") (PyVal.pyBool false) = false)
    ∧ set_cdrom ⟨PyVal.pyBool false, some "/iso"⟩ (PyVal.pyStr "x")
        = (⟨PyVal.pyBool false, some "/iso"⟩,
           some "Guest.cdrom must be a boolean type")
    ∧ pyEq (PyVal.pyInt 1) (PyVal.pyBool true) = true
    ∧ set_cdrom ⟨PyVal.pyBool false, some "/iso"⟩ (PyVal.pyInt 1)
        = (⟨PyVal.pyInt 1, some "/iso"⟩, none) :=
  ⟨⟨by decide, by decide⟩,
   (set_cdrom_spec ⟨PyVal.pyBool false, some "/iso"⟩ (PyVal.pyStr "x")).1
     ⟨by decide, by decide⟩,
   by decide,
   (set_cdrom_spec ⟨PyVal.pyBool false, some "/iso"⟩ (PyVal.pyInt 1)).2
     (Or.inl (by decide))⟩

end VirtInst
